import Mathlib

/-!
Verification development for `src/libs/OptionsListUtils.js` of the Expensify
option-list module: building selectable "option" records from report and
personal-detail snapshots, search matching, and the `getOptions` filter/sort
pipeline.

JS strings are embedded as `List Char`; JS `undefined`/`null` on record fields
is embedded as `Option`; code that can throw a `TypeError` (dereferencing an
`undefined` value) is embedded in the `Option` monad, `none` meaning the call
throws.  External collaborators (`ReportUtils`, `Str`, localization, the
Onyx-populated module caches) are inputs: they are either fields of the
`Env` structure (abstract functions / stores) or fields of the `Report`
record (the per-report predicates `ReportUtils.isChatRoom`, `isDefaultRoom`,
`isPolicyExpenseChat`, `isArchivedRoom`, `isUserCreatedPolicyRoom`,
`isUnread`, `getPolicyType`, which only inspect the report and the ambient
policy store).
-/

/-- JS strings, embedded as lists of characters. -/
abbrev Str := List Char

/-- Coerce a Lean string literal into the embedding's string type. -/
def str (s : String) : Str := s.data

/-- JS `String.prototype.toLowerCase`, modelled with `Char.toLower`. -/
def toLowerL (s : Str) : Str := s.map Char.toLower

/-- JS `String.prototype.trim`: strip whitespace from both ends. -/
def trimL (s : Str) : Str :=
  ((s.dropWhile Char.isWhitespace).reverse.dropWhile Char.isWhitespace).reverse

/-- JS `String.prototype.split(c)` for a single-character separator:
`"".split(c) = [""]`, separators delimit (possibly empty) fields. -/
def splitOnChar (c : Char) : Str → List Str
  | [] => [[]]
  | x :: xs =>
    match splitOnChar c xs with
    | [] => [[]]
    | r :: rs => if x == c then [] :: r :: rs else (x :: r) :: rs

/-- Substring test: does `s` contain `pat` as a contiguous substring?
(JS `new RegExp(escaped pattern).test(s)`.) -/
def containsSub (pat : Str) : Str → Bool
  | [] => pat.isEmpty
  | c :: rest => pat.isPrefixOf (c :: rest) || containsSub pat rest

/-- Case-insensitive substring test, the embedding of testing an
escaped-literal regex built with the `'i'` flag. -/
def containsCI (pat s : Str) : Bool := containsSub (toLowerL pat) (toLowerL s)

/-- `searchText.replace(/&nbsp;/g, '')`: drop every literal `&nbsp;`. -/
def stripNbsp : Str → Str
  | '&' :: 'n' :: 'b' :: 's' :: 'p' :: ';' :: rest => stripNbsp rest
  | c :: rest => c :: stripNbsp rest
  | [] => []

/-- JS string `<` comparison (lexicographic by character code). -/
def ltStr : Str → Str → Bool
  | [], [] => false
  | [], _ :: _ => true
  | _ :: _, [] => false
  | a :: as, b :: bs => if a < b then true else if b < a then false else ltStr as bs

/-- JS `String(n)` for a natural number. -/
def natToStr (n : Nat) : Str := (Nat.repr n).data

/-- `Array.prototype.join(' ')`. -/
def joinSpace (l : List Str) : Str := List.intercalate (str " ") l

/-- JS truthiness of a string-or-`undefined` value (`undefined` and `""` are
falsy). -/
def isTruthyS : Option Str → Bool
  | none => false
  | some s => !s.isEmpty

/-! ## Data model

Records mirror the JS objects read by the module.  Optional JS fields that
the module reads with truthiness checks are embedded as `Str` with `[]` for
absent (absent and `""` are equally falsy) or as `Option` where the
`null`/`undefined` distinction matters to control flow. -/

/-- A personal-detail record.  Per the spec (§3) the personal-detail store is
keyed by login, so the store is a list of these records and lookup is by the
`login` field. -/
structure PersonalDetail where
  login : Str
  displayName : Str := []
  firstName : Str := []
  lastName : Str := []
  phoneNumber : Str := []
  payPalMeAddress : Str := []
  avatar : Str := []
  deriving DecidableEq, Inhabited

/-- One report action; `hasErrors` embeds `!_.isEmpty(action.errors)`, and
`reason` embeds `action.originalMessage.reason` (absent when the action has
no original message or reason). -/
structure ActionR where
  hasErrors : Bool := false
  reason : Option Str := none
  deriving DecidableEq, Inhabited

/-- An IOU aggregate record (`iouReports` store entry). -/
structure IouReport where
  ownerEmail : Str
  total : Int := 0
  deriving DecidableEq, Inhabited

/-- An entry of the session's `loginList`. -/
structure LoginEntry where
  partnerUserID : Str
  deriving DecidableEq, Inhabited

/-- A report snapshot.  `reportID = 0` embeds a missing/falsy `reportID`, and
`iouReportID = 0` a missing `iouReportID` (the stores never key an entry by
`0`).  The `Bool` flags starting at `isChatRoom` embed the `ReportUtils`
predicates (`isChatRoom`, `isDefaultRoom`, `isPolicyExpenseChat`,
`isArchivedRoom`, `isUserCreatedPolicyRoom`, `isUnread`) applied to this
report, and `policyType` embeds `ReportUtils.getPolicyType(report, policies)`
under the ambient policy store; these collaborators live outside this module
and only inspect the report (and the policy store), so their values are
per-report inputs. -/
structure Report where
  reportID : Nat := 0
  participants : List Str := []
  lastMessageTimestamp : Int := 0
  lastVisitedTimestamp : Int := 0
  reportName : Str := []
  isPinned : Bool := false
  hasDraft : Bool := false
  unreadActionCount : Nat := 0
  hasOutstandingIOU : Bool := false
  iouReportID : Nat := 0
  lastMessageText : Str := []
  lastMessageHtml : Str := []
  lastActorEmail : Str := []
  ownerEmail : Str := []
  isOwnPolicyExpenseChat : Bool := false
  hasErrors : Bool := false
  hasErrorFields : Bool := false
  isChatRoom : Bool := false
  isDefaultRoom : Bool := false
  isPolicyExpenseChat : Bool := false
  isArchivedRoom : Bool := false
  isUserCreatedPolicyRoom : Bool := false
  isUnreadReport : Bool := false
  policyType : Str := []
  deriving DecidableEq, Inhabited

/-- The module's ambient state and external collaborators: the
Onyx-subscription caches (`currentUserLogin`, `loginList`, `countryCodeByIP`,
`iouReports` keyed by IOU report id, `lastReportActions` keyed by report id)
and the imported helpers from `ReportUtils`, `Str`, `Localize` and
`Permissions` that this module calls but does not define. -/
structure Env where
  currentUserLogin : Str
  loginList : List LoginEntry := []
  countryCodeByIP : Nat := 1
  iouReports : List (Nat × IouReport) := []
  lastReportActions : List (Nat × ActionR) := []
  /-- `ReportUtils.getReportName(report, personalDetailMap, policies)`. -/
  getReportName : Option Report → List PersonalDetail → Str
  /-- `ReportUtils.getChatRoomSubtitle(report, policies)`. -/
  getChatRoomSubtitle : Report → Str
  /-- `ReportUtils.getReportParticipantsTitle(participants)`. -/
  getReportParticipantsTitle : List Str → Str
  /-- `ReportUtils.getIcons(report, personalDetails, policies, avatar)`. -/
  getIcons : Option Report → List PersonalDetail → Str → List Str
  /-- `ReportUtils.getDefaultAvatar(login)`. -/
  getDefaultAvatar : Str → Str
  /-- `ReportUtils.isReportMessageAttachment({text, html})`. -/
  isReportMessageAttachment : Str → Str → Bool
  /-- `Str.htmlDecode`. -/
  htmlDecode : Str → Str
  /-- `Str.removeSMSDomain`. -/
  removeSMSDomain : Str → Str
  /-- The localized archive-reason line built at `OptionsListUtils.js:310`
  (`Localize.translate(locale, reportArchiveReasons.<reason>, …)` together
  with its `displayName`/`policyName` parameters derived from the report). -/
  archivedText : Report → Str → Str
  /-- `Localize.translateLocal('common.attachment')` wrapped in brackets. -/
  attachmentLabel : Str := str "[Attachment]"
  /-- `Str.isValidEmail`. -/
  isValidEmail : Str → Bool
  /-- `Str.isValidPhone`. -/
  isValidPhone : Str → Bool
  /-- `Str.isDomainEmail`. -/
  isDomainEmail : Str → Bool
  /-- `Permissions.canUseDefaultRooms(betas)`. -/
  canUseDefaultRooms : List Str → Bool
  /-- `Permissions.canUsePolicyRooms(betas)`. -/
  canUsePolicyRooms : List Str → Bool
  /-- `Permissions.canUsePolicyExpenseChat(betas)`. -/
  canUsePolicyExpenseChat : List Str → Bool
  /-- `Permissions.canUseChronos(betas)`. -/
  canUseChronos : List Str → Bool
  /-- `ReportUtils.hasExpensifyGuidesEmails(logins)`. -/
  hasExpensifyGuidesEmails : List Str → Bool

/-- `CONST.SMS.DOMAIN`. -/
def smsDomain : Str := str "@expensify.sms"

/-- `CONST.POLICY.TYPE.FREE`. -/
def freeType : Str := str "free"

/-- `CONST.EMAIL.CHRONOS`. -/
def chronosEmail : Str := str "chronos@expensify.com"

/-- `CONST.REPORT.ARCHIVE_REASON.DEFAULT`. -/
def defaultArchiveReason : Str := str "default"

/-- `CONST.BRICK_ROAD_INDICATOR_STATUS.ERROR`. -/
def brickRoadError : Str := str "error"

/-- The derived option record produced by `createOption`
(`OptionsListUtils.js:241`).  The JS object has exactly the fields below and
no `isDefaultRoom` field; `isDefaultRoom : Option Bool := none` embeds that
reading `option.isDefaultRoom` yields `undefined` (falsy). -/
structure OptionR where
  text : Str := []
  alternateText : Option Str := none
  brickRoadIndicator : Option Str := none
  icons : List Str := []
  tooltipText : Option Str := none
  ownerEmail : Option Str := none
  subtitle : Option Str := none
  participantsList : List PersonalDetail := []
  login : Option Str := none
  reportID : Option Nat := none
  phoneNumber : Option Str := none
  payPalMeAddress : Option Str := none
  isUnread : Option Bool := none
  hasDraftComment : Bool := false
  keyForList : Option Str := none
  searchText : Str := []
  isPinned : Bool := false
  hasOutstandingIOU : Bool := false
  iouReportID : Nat := 0
  isIOUReportOwner : Option Bool := none
  iouReportAmount : Int := 0
  isChatRoom : Bool := false
  isArchivedRoom : Bool := false
  shouldShowSubscript : Bool := false
  isPolicyExpenseChat : Bool := false
  isDefaultRoom : Option Bool := none
  deriving DecidableEq, Inhabited

/-- The `{showChatPreviewLine, forcePolicyNamePreview}` options bag of
`createOption`. -/
structure COpts where
  showChatPreviewLine : Bool := false
  forcePolicyNamePreview : Bool := false
  deriving DecidableEq, Inhabited

/-- The configuration bag of `getOptions` with the source's defaults
(`OptionsListUtils.js:416`).  `selectedOptions` keeps only the `login` fields
of the selected option objects, the only field `getOptions` reads. -/
structure Config where
  reportActions : List (Nat × List ActionR) := []
  betas : List Str := []
  selectedOptions : List (Option Str) := []
  maxRecentReportsToShow : Nat := 0
  excludeLogins : List Str := []
  excludeChatRooms : Bool := false
  includeMultipleParticipantReports : Bool := false
  includePersonalDetails : Bool := false
  includeRecentReports : Bool := false
  prioritizePinnedReports : Bool := false
  prioritizeDefaultRoomsInSearch : Bool := false
  sortByReportTypeInSearch : Bool := false
  sortByLastMessageTimestamp : Bool := true
  searchValue : Str := []
  showChatPreviewLine : Bool := false
  showReportsWithNoComments : Bool := false
  hideReadReports : Bool := false
  sortByAlphaAsc : Bool := false
  sortPersonalDetailsByAlphaAsc : Bool := true
  forcePolicyNamePreview : Bool := false
  prioritizeIOUDebts : Bool := false
  prioritizeReportsWithDraftComments : Bool := false
  deriving Inhabited

/-- The value returned by `getOptions`. -/
structure OptionsResult where
  personalDetails : List OptionR
  recentReports : List OptionR
  userToInvite : Option OptionR
  deriving DecidableEq, Inhabited

/-! ## Embedded source functions -/

/-- Keyed-store lookup (`store[key]`); the stores never key an entry by the
falsy id `0`, so a `0` id finds nothing. -/
def lookupNat {α : Type} (m : List (Nat × α)) (k : Nat) : Option α :=
  if k == 0 then none else (m.find? (fun e => e.1 == k)).map (fun e => e.2)

/-- `addSMSDomainIfPhoneNumber` (`OptionsListUtils.js:86`). -/
def addSMSDomainIfPhoneNumber (env : Env) (login : Str) : Str :=
  if env.isValidPhone login && !env.isValidEmail login then
    let smsLogin := login ++ smsDomain
    if smsLogin.contains '+' then smsLogin
    else ('+' :: natToStr env.countryCodeByIP) ++ smsLogin
  else login

/-- `uniqFast`'s loop (`OptionsListUtils.js:152`): `seen` is the string set
held in the JS `seenItems` object. -/
def uniqFastAux : List Str → List Str → List Str
  | [], _ => []
  | x :: xs, seen =>
    if seen.contains x then uniqFastAux xs seen
    else x :: uniqFastAux xs (x :: seen)

/-- `uniqFast` (`OptionsListUtils.js:152`): drop duplicates, keeping first
occurrences. -/
def uniqFast (items : List Str) : List Str := uniqFastAux items []

/-- `getPersonalDetailsForLogins` (`OptionsListUtils.js:101`).  The JS result
is an object keyed by login whose keys appear in first-insertion order;
duplicated logins overwrite an entry with the identical computed value, so
the value list is the map over the deduplicated logins. -/
def getPersonalDetailsForLogins (env : Env) (logins : List Str)
    (personalDetails : List PersonalDetail) : List PersonalDetail :=
  (uniqFast logins).map fun login =>
    match personalDetails.find? (fun p => p.login == login) with
    | some pd => pd
    | none =>
      { login := login
        displayName := env.removeSMSDomain login
        avatar := env.getDefaultAvatar login }

/-- `getParticipantNames` (`OptionsListUtils.js:124`).  The JS `Set` is
embedded as a list queried with `contains`; only truthy (non-empty) fields
are added, lowercased. -/
def getParticipantNames (personalDetailList : List PersonalDetail) : List Str :=
  personalDetailList.foldr
    (fun p acc =>
      (if !p.login.isEmpty then [toLowerL p.login] else []) ++
      (if !p.firstName.isEmpty then [toLowerL p.firstName] else []) ++
      (if !p.lastName.isEmpty then [toLowerL p.lastName] else []) ++
      (if !p.displayName.isEmpty then [toLowerL p.displayName] else []) ++ acc)
    []

/-- `searchTerms` accumulated by `getSearchText` (`OptionsListUtils.js:176`),
in push order: participant display names and dot-stripped logins (direct
chats only), then the report name split into characters and comma segments,
then — for rooms — the chat-room subtitle split the same two ways, or — for
direct chats — the raw participant logins. -/
def searchTermsOf (env : Env) (report : Option Report) (reportName : Str)
    (personalDetailList : List PersonalDetail)
    (isChatRoomOrPolicyExpenseChat : Bool) : List Str :=
  (if !isChatRoomOrPolicyExpenseChat then
     personalDetailList.foldr
       (fun p acc => p.displayName :: p.login.filter (fun c => c != '.') :: acc) []
   else []) ++
  (match report with
   | none => []
   | some r =>
     reportName.map (fun c => [c]) ++ splitOnChar ',' reportName ++
     (if isChatRoomOrPolicyExpenseChat then
        (env.getChatRoomSubtitle r).map (fun c => [c]) ++
          splitOnChar ',' (env.getChatRoomSubtitle r)
      else r.participants))

/-- `getSearchText` (`OptionsListUtils.js:176`): deduplicate the accumulated
terms with `uniqFast` and join them with single spaces. -/
def getSearchText (env : Env) (report : Option Report) (reportName : Str)
    (personalDetailList : List PersonalDetail)
    (isChatRoomOrPolicyExpenseChat : Bool) : Str :=
  joinSpace (uniqFast (searchTermsOf env report reportName personalDetailList
    isChatRoomOrPolicyExpenseChat))

/-- `getBrickRoadIndicatorStatusForReport` (`OptionsListUtils.js:210`).
`Report.hasErrors` embeds `!_.isEmpty(report.errors)` and
`Report.hasErrorFields` embeds the `_.some` over `report.errorFields`. -/
def getBrickRoadIndicatorStatusForReport (report : Option Report)
    (reportActions : List (Nat × List ActionR)) : Str :=
  let reportErrorsNonEmpty := (report.map (fun r => r.hasErrors)).getD false
  let hasReportFieldErrors := (report.map (fun r => r.hasErrorFields)).getD false
  let reportsActions : List ActionR :=
    match report with
    | some r =>
      ((reportActions.find? (fun (e : Nat × List ActionR) => e.1 == r.reportID)).map
        (fun e => e.2)).getD []
    | none => []
  let hasReportActionErrors := reportsActions.any (fun a => a.hasErrors)
  if !reportErrorsNonEmpty && !hasReportFieldErrors && !hasReportActionErrors then []
  else brickRoadError

/-- `createOption` (`OptionsListUtils.js:237`), in the `Option` monad: `none`
means the JS call throws a `TypeError`.  Every dereference of
`personalDetail` (the first resolved participant: lines 323, 326, 338-340
and the `personalDetail.avatar` argument of `getIcons` at line 347) binds
`personalDetail?`, which is `none` exactly when the login list is empty. -/
def createOption (env : Env) (logins : List Str) (personalDetails : List PersonalDetail)
    (report : Option Report) (reportActions : List (Nat × List ActionR))
    (opts : COpts) : Option OptionR := do
  let personalDetailList := getPersonalDetailsForLogins env logins personalDetails
  let personalDetail? := personalDetailList.head?
  match report with
  | some r => do
    let isChatRoom := r.isChatRoom
    let isArchivedRoom := r.isArchivedRoom
    let isPolicyExpenseChat := r.isPolicyExpenseChat
    let hasMultipleParticipants :=
      personalDetailList.length > 1 || isChatRoom || isPolicyExpenseChat
    let subtitle := env.getChatRoomSubtitle r
    let lastMessageTextFromReport :=
      if env.isReportMessageAttachment r.lastMessageText r.lastMessageHtml then
        env.attachmentLabel
      else env.htmlDecode r.lastMessageText
    let lastActorDetails := personalDetailList.find? (fun p => p.login == r.lastActorEmail)
    let lastMessageText0 :=
      (if hasMultipleParticipants && lastActorDetails.isSome then
         ((lastActorDetails.map (fun p => p.displayName)).getD []) ++ str ": "
       else []) ++ lastMessageTextFromReport
    let lastMessageText :=
      if isPolicyExpenseChat && isArchivedRoom then
        env.archivedText r
          (((lookupNat env.lastReportActions r.reportID).bind (fun a => a.reason)).getD
            defaultArchiveReason)
      else lastMessageText0
    let alternateText ←
      if isChatRoom || isPolicyExpenseChat then
        pure (if opts.showChatPreviewLine && !opts.forcePolicyNamePreview
                 && !lastMessageText.isEmpty then
                lastMessageText
              else subtitle)
      else if opts.showChatPreviewLine && !lastMessageText.isEmpty then
        pure lastMessageText
      else do
        let pd ← personalDetail?
        pure (env.removeSMSDomain pd.login)
    let hasOutstandingIOU := r.hasOutstandingIOU
    let iouPart :=
      if hasOutstandingIOU then
        match lookupNat env.iouReports r.iouReportID with
        | some iou => (some (iou.ownerEmail == env.currentUserLogin), iou.total)
        | none => ((none : Option Bool), (0 : Int))
      else (none, 0)
    let loginPart ←
      if !hasMultipleParticipants then do
        let pd ← personalDetail?
        pure (some pd.login, some pd.phoneNumber, some pd.payPalMeAddress)
      else pure ((none : Option Str), (none : Option Str), (none : Option Str))
    let pd ← personalDetail?
    let reportName := env.getReportName (some r) personalDetailList
    pure {
      text := reportName
      alternateText := some alternateText
      brickRoadIndicator := some (getBrickRoadIndicatorStatusForReport (some r) reportActions)
      icons := env.getIcons (some r) personalDetails pd.avatar
      tooltipText := some (env.getReportParticipantsTitle r.participants)
      ownerEmail := some r.ownerEmail
      subtitle := some subtitle
      participantsList := personalDetailList
      login := loginPart.1
      reportID := some r.reportID
      phoneNumber := loginPart.2.1
      payPalMeAddress := loginPart.2.2
      isUnread := some (decide (0 < r.unreadActionCount))
      hasDraftComment := r.hasDraft
      keyForList := some (natToStr r.reportID)
      searchText := getSearchText env (some r) reportName personalDetailList
        (isChatRoom || isPolicyExpenseChat)
      isPinned := r.isPinned
      hasOutstandingIOU := hasOutstandingIOU
      iouReportID := r.iouReportID
      isIOUReportOwner := iouPart.1
      iouReportAmount := iouPart.2
      isChatRoom := isChatRoom
      isArchivedRoom := isArchivedRoom
      shouldShowSubscript := isPolicyExpenseChat && !r.isOwnPolicyExpenseChat && !isArchivedRoom
      isPolicyExpenseChat := isPolicyExpenseChat
      isDefaultRoom := none }
  | none => do
    let pdK ← personalDetail?
    let hasMultipleParticipants := personalDetailList.length > 1
    let loginPart ←
      if !hasMultipleParticipants then do
        let pd ← personalDetail?
        pure (some pd.login, some pd.phoneNumber, some pd.payPalMeAddress)
      else pure ((none : Option Str), (none : Option Str), (none : Option Str))
    let pd ← personalDetail?
    let reportName := env.getReportName none personalDetailList
    pure {
      text := reportName
      alternateText := none
      brickRoadIndicator := none
      icons := env.getIcons none personalDetails pd.avatar
      tooltipText := none
      ownerEmail := none
      subtitle := none
      participantsList := personalDetailList
      login := loginPart.1
      reportID := none
      phoneNumber := loginPart.2.1
      payPalMeAddress := loginPart.2.2
      isUnread := none
      hasDraftComment := false
      keyForList := some pdK.login
      searchText := getSearchText env none reportName personalDetailList false
      isPinned := false
      hasOutstandingIOU := false
      iouReportID := 0
      isIOUReportOwner := none
      iouReportAmount := 0
      isChatRoom := false
      isArchivedRoom := false
      shouldShowSubscript := false
      isPolicyExpenseChat := false
      isDefaultRoom := none }

/-- The token list of `isSearchStringMatch` (`OptionsListUtils.js:363`):
strip dots, turn commas into spaces, split on spaces, trim each token. -/
def searchWordsOf (searchValue : Str) : List Str :=
  (splitOnChar ' '
    ((searchValue.filter (fun c => c != '.')).map
      (fun c => if c == ',' then ' ' else c))).map trimL

/-- `isSearchStringMatch` (`OptionsListUtils.js:362`).  Each token must
either occur case-insensitively in the search text with `&nbsp;` stripped,
or — when the option is not a chat room — be contained as typed (the JS
`Set.has(word)` does not lowercase the token) in the participant-name set. -/
def isSearchStringMatch (searchValue searchText : Str) (participantNames : List Str)
    (isChatRoom : Bool) : Bool :=
  (searchWordsOf searchValue).all fun word =>
    containsCI word (stripNbsp searchText) ||
      (!isChatRoom && participantNames.contains word)

/-- The argument of `isCurrentUser`: `null`/`undefined` is `none`. -/
structure UserDetails where
  login : Str
  deriving DecidableEq, Inhabited

/-- `isCurrentUser` (`OptionsListUtils.js:383`): the early `!userDetails`
return, then the lowercased comparison against `currentUserLogin` and the
`while` scan over `loginList`, which together compute a disjunction. -/
def isCurrentUser (env : Env) (userDetails : Option UserDetails) : Bool :=
  match userDetails with
  | none => false
  | some ud =>
    let userDetailsLogin := addSMSDomainIfPhoneNumber env ud.login
    toLowerL env.currentUserLogin == toLowerL userDetailsLogin ||
      env.loginList.any (fun e => toLowerL e.partnerUserID == toLowerL userDetailsLogin)

/-! ## The `getOptions` pipeline -/

/-- Insert `x` before the first element it does not strictly follow.  Folding
this over a list yields a stable sort. -/
def insertBefore {α : Type} (lt : α → α → Bool) (x : α) : List α → List α
  | [] => [x]
  | y :: ys => if lt y x then y :: insertBefore lt x ys else x :: y :: ys

/-- Stable sort by the strict comparison `lt` ("strictly precedes").  Both
`lodashOrderBy` (documented stable) and underscore's `sortBy` (ties broken
by original index) are stable sorts, so they are embedded by this function
with the comparison they use. -/
def stableSort {α : Type} (lt : α → α → Bool) : List α → List α
  | [] => []
  | x :: xs => insertBefore lt x (stableSort lt xs)

/-- The primary comparison of `getOptions` (`OptionsListUtils.js:449`):
report name ascending when `sortByAlphaAsc`, else last-message or
last-visited timestamp descending. -/
def primaryLt (cfg : Config) (a b : Report) : Bool :=
  if cfg.sortByAlphaAsc then ltStr a.reportName b.reportName
  else if cfg.sortByLastMessageTimestamp then b.lastMessageTimestamp < a.lastMessageTimestamp
  else b.lastVisitedTimestamp < a.lastVisitedTimestamp

/-- `lodashOrderBy(reports, sortProperty, sortDirection)`
(`OptionsListUtils.js:457`). -/
def primarySort (cfg : Config) (reports : List Report) : List Report :=
  stableSort (primaryLt cfg) reports

/-- `_.sortBy(orderedReports, report => ReportUtils.isArchivedRoom(report))`
(`OptionsListUtils.js:460`): a stable sort on the boolean key, `false`
before `true`. -/
def moveArchivedToEnd (reports : List Report) : List Report :=
  stableSort (fun a b => !a.isArchivedRoom && b.isArchivedRoom) reports

/-- The candidate ordering of `getOptions` (`OptionsListUtils.js:449-460`):
primary sort, then archived rooms moved to the end. -/
def orderedReportsOf (cfg : Config) (reports : List Report) : List Report :=
  moveArchivedToEnd (primarySort cfg reports)

/-- The per-report exclusion rules of the candidate loop
(`OptionsListUtils.js:463-520`), `true` meaning the report is skipped. -/
def shouldSkipReport (env : Env) (cfg : Config) (activeReportID : Nat)
    (report : Report) : Bool :=
  let logins := report.participants
  let shouldFilterNoParticipants :=
    logins.isEmpty && !report.isChatRoom && !report.isDefaultRoom
      && !report.isPolicyExpenseChat
  if report.reportID == 0 || shouldFilterNoParticipants then true
  else
    let hasDraftComment := report.hasDraft
    let iouReportOwner :=
      match (if report.hasOutstandingIOU then lookupNat env.iouReports report.iouReportID
             else none) with
      | some iou => iou.ownerEmail
      | none => []
    let reportContainsIOUDebt :=
      !iouReportOwner.isEmpty && iouReportOwner != env.currentUserLogin
    let shouldFilterReportIfEmpty :=
      !cfg.showReportsWithNoComments && report.lastMessageTimestamp == 0
        && !(!report.isArchivedRoom && (report.isDefaultRoom || report.isPolicyExpenseChat))
    let shouldFilterReportIfRead := cfg.hideReadReports && !report.isUnreadReport
    let shouldFilterReport := shouldFilterReportIfEmpty || shouldFilterReportIfRead
    if report.reportID != activeReportID && !report.isPinned && !hasDraftComment
        && shouldFilterReport && !reportContainsIOUDebt then true
    else if report.isChatRoom && cfg.excludeChatRooms then true
    else if !env.canUseDefaultRooms cfg.betas && report.isDefaultRoom
        && report.policyType != freeType
        && !env.hasExpensifyGuidesEmails logins then true
    else if report.isUserCreatedPolicyRoom && !env.canUsePolicyRooms cfg.betas then true
    else if report.isPolicyExpenseChat && !env.canUsePolicyExpenseChat cfg.betas then true
    else false

/-- The `createOption` options for a surviving report
(`OptionsListUtils.js:528-532`): policy-expense chats force the policy-name
preview when searching someone else's chat. -/
def reportOptionConfig (cfg : Config) (r : Report) : COpts :=
  { showChatPreviewLine := cfg.showChatPreviewLine
    forcePolicyNamePreview :=
      if r.isPolicyExpenseChat then !r.isOwnPolicyExpenseChat && !cfg.searchValue.isEmpty
      else cfg.forcePolicyNamePreview }

/-- The candidate-building loop over the ordered reports
(`OptionsListUtils.js:462-533`): skip filtered reports, build an option for
each survivor, and record single-participant non-room reports in
`reportMapForLogins` (keyed by `logins[0]`, which is `none` for an empty
participant list — the JS `undefined` key, unreachable by a string login).
`none` means some `createOption` call threw. -/
def buildReportOptions (env : Env) (cfg : Config) (activeReportID : Nat)
    (personalDetails : List PersonalDetail) :
    List Report → Option (List OptionR × List (Option Str × Report))
  | [] => some ([], [])
  | r :: rs =>
    if shouldSkipReport env cfg activeReportID r then
      buildReportOptions env cfg activeReportID personalDetails rs
    else
      (createOption env r.participants personalDetails (some r) cfg.reportActions
        (reportOptionConfig cfg r)).bind fun opt =>
      (buildReportOptions env cfg activeReportID personalDetails rs).map fun rest =>
      (opt :: rest.1,
       (if r.participants.length ≤ 1 && !r.isPolicyExpenseChat && !r.isChatRoom then
          [(r.participants.head?, r)]
        else []) ++ rest.2)

/-- `reportMapForLogins[login]`: later assignments overwrite earlier ones,
so the lookup returns the last entry stored under the login. -/
def lookupReportMap (rmap : List (Option Str × Report)) (login : Str) : Option Report :=
  (rmap.reverse.find? (fun e => e.1 == some login)).map (fun e => e.2)

/-- `allPersonalDetailsOptions` (`OptionsListUtils.js:535-544`): one option
per personal detail, cross-referencing any report stored for its login. -/
def buildPersonalDetailOptions (env : Env) (cfg : Config)
    (personalDetails : List PersonalDetail) (rmap : List (Option Str × Report)) :
    Option (List OptionR) :=
  personalDetails.mapM fun pd =>
    createOption env [pd.login] personalDetails (lookupReportMap rmap pd.login)
      cfg.reportActions
      { showChatPreviewLine := cfg.showChatPreviewLine
        forcePolicyNamePreview := cfg.forcePolicyNamePreview }

/-- `lodashOrderBy(options, ['text'], ['asc'])`. -/
def sortByTextAsc (l : List OptionR) : List OptionR :=
  stableSort (fun a b => ltStr a.text b.text) l

/-- `lodashOrderBy(options, ['iouReportAmount'], ['desc'])`. -/
def sortByAmountDesc (l : List OptionR) : List OptionR :=
  stableSort (fun a b => b.iouReportAmount < a.iouReportAmount) l

/-- `lodashOrderBy(options, [o => o.text.toLowerCase()], 'asc')`
(`OptionsListUtils.js:548`). -/
def sortByTextLowerAsc (l : List OptionR) : List OptionR :=
  stableSort (fun a b => ltStr (toLowerL a.text) (toLowerL b.text)) l

/-- `loginOptionsToExclude` before the recent-report loop
(`OptionsListUtils.js:552-556`): the selected options' logins, the current
user, and the caller's excluded logins. -/
def initialExclude (env : Env) (cfg : Config) : List (Option Str) :=
  cfg.selectedOptions ++ [some env.currentUserLogin] ++ cfg.excludeLogins.map some

/-- The mutable state of the recent-report selection loop: the four buckets
and the growing exclusion list. -/
structure Buckets where
  recent : List OptionR := []
  pinned : List OptionR := []
  iou : List OptionR := []
  draft : List OptionR := []
  exclude : List (Option Str) := []
  deriving DecidableEq, Inhabited

/-- The bucket placement of an accepted candidate
(`OptionsListUtils.js:584-596`).  The pinned-bucket guard's
`reportOption.isDefaultRoom` reads a field `createOption` never sets
(`undefined`, falsy), embedded by `Option.getD false`; in
`!reportOption.isIOUReportOwner` the field may be `null` (also falsy),
embedded the same way. -/
def placeBucket (cfg : Config) (o : OptionR) (st : Buckets) : Buckets :=
  if cfg.prioritizePinnedReports && o.isPinned
      && !(o.isArchivedRoom && o.isDefaultRoom.getD false) then
    { st with pinned := st.pinned ++ [o] }
  else if cfg.prioritizeIOUDebts && o.hasOutstandingIOU
      && !(o.isIOUReportOwner.getD false) then
    { st with iou := st.iou ++ [o] }
  else if cfg.prioritizeReportsWithDraftComments && o.hasDraftComment then
    { st with draft := st.draft ++ [o] }
  else { st with recent := st.recent ++ [o] }

/-- The exclusion-list push for an accepted candidate
(`OptionsListUtils.js:598-601`): only truthy logins are recorded. -/
def pushLoginExclude (o : OptionR) (st : Buckets) : Buckets :=
  if isTruthyS o.login then { st with exclude := st.exclude ++ [o.login] } else st

/-- One iteration body of the recent-report loop
(`OptionsListUtils.js:565-601`): the three `continue` filters, the bucket
placement, and the exclusion-list push. -/
def stepOption (cfg : Config) (o : OptionR) (st : Buckets) : Buckets :=
  if !cfg.includeMultipleParticipantReports && !isTruthyS o.login then st
  else if isTruthyS o.login && st.exclude.any (fun e => e == o.login) then st
  else if !cfg.searchValue.isEmpty
      && !isSearchStringMatch cfg.searchValue o.searchText
           (getParticipantNames o.participantsList) o.isChatRoom then st
  else pushLoginExclude o (placeBucket cfg o st)

/-- The recent-report selection loop (`OptionsListUtils.js:559-602`): before
each candidate the loop breaks once the plain `recentReportOptions` bucket
has exactly `maxRecentReportsToShow` entries (and is non-empty). -/
def recentLoop (cfg : Config) : List OptionR → Buckets → Buckets
  | [], st => st
  | o :: os, st =>
    if 0 < st.recent.length && st.recent.length == cfg.maxRecentReportsToShow then st
    else recentLoop cfg os (stepOption cfg o st)

/-- The loop state after the recent-report selection phase: the loop runs
only when `includeRecentReports` is set, starting from empty buckets and the
initial exclusion list. -/
def pipelineBuckets (env : Env) (cfg : Config) (allReportOptions : List OptionR) : Buckets :=
  if cfg.includeRecentReports then
    recentLoop cfg allReportOptions { exclude := initialExclude env cfg }
  else { exclude := initialExclude env cfg }

/-- The recombination steps (`OptionsListUtils.js:605-629`): prepend the
sorted draft bucket, then the sorted IOU-debt bucket, then the sorted pinned
bucket, then — when prioritizing default rooms during a search — stably
partition chat rooms to the front. -/
def recombinedRecents (cfg : Config) (st : Buckets) : List OptionR :=
  let r1 := if cfg.prioritizeReportsWithDraftComments then
              sortByTextAsc st.draft ++ st.recent
            else st.recent
  let r2 := if cfg.prioritizeIOUDebts then sortByAmountDesc st.iou ++ r1 else r1
  let r3 := if cfg.prioritizePinnedReports then sortByTextAsc st.pinned ++ r2 else r2
  if cfg.prioritizeDefaultRoomsInSearch && !cfg.searchValue.isEmpty then
    r3.filter (fun o => o.isChatRoom) ++ r3.filter (fun o => !o.isChatRoom)
  else r3

/-- The personal-details selection (`OptionsListUtils.js:631-646`): drop
candidates whose login is excluded or that fail the search match. -/
def filterPersonalDetails (cfg : Config) (excl : List (Option Str))
    (pdOptions : List OptionR) : List OptionR :=
  pdOptions.filter fun p =>
    !excl.any (fun e => e == p.login) &&
      (cfg.searchValue.isEmpty ||
        isSearchStringMatch cfg.searchValue p.searchText
          (getParticipantNames p.participantsList) p.isChatRoom)

/-- The guard of the invite synthesis (`OptionsListUtils.js:651-657`). -/
def inviteGuard (env : Env) (cfg : Config) (excl : List (Option Str))
    (recent pds : List OptionR) : Bool :=
  !cfg.searchValue.isEmpty
    && (decide (recent.length + pds.length = 0)
        || !(pds ++ recent).any (fun o => o.login == some (toLowerL cfg.searchValue)))
    && !isCurrentUser env (some { login := cfg.searchValue })
    && cfg.selectedOptions.all (fun s => s != some cfg.searchValue)
    && ((env.isValidEmail cfg.searchValue && !env.isDomainEmail cfg.searchValue)
        || env.isValidPhone cfg.searchValue)
    && !excl.any (fun e =>
         e == some (toLowerL (addSMSDomainIfPhoneNumber env cfg.searchValue)))
    && (cfg.searchValue != chronosEmail || env.canUseChronos cfg.betas)

/-- The invite synthesis (`OptionsListUtils.js:648-667`): when the guard
holds, prefix a country code onto plus-less phone numbers, build the option
with no report, and replace its icons by the default avatar. -/
def inviteStep (env : Env) (cfg : Config) (personalDetails : List PersonalDetail)
    (excl : List (Option Str)) (recent pds : List OptionR) : Option (Option OptionR) :=
  if inviteGuard env cfg excl recent pds then
    let login :=
      if env.isValidPhone cfg.searchValue && !cfg.searchValue.contains '+' then
        ('+' :: natToStr env.countryCodeByIP) ++ cfg.searchValue
      else cfg.searchValue
    (createOption env [login] personalDetails none cfg.reportActions
      { showChatPreviewLine := cfg.showChatPreviewLine }).map fun u =>
      some { u with icons := [env.getDefaultAvatar login] }
  else some none

/-- The 4-tier rank of the search-mode merge (`OptionsListUtils.js:674-687`):
rooms and archived rooms last, multi-participant entries next, non-exact
single-login matches next, exact lowercased-login matches first. -/
def searchRank (searchValue : Str) (o : OptionR) : Nat :=
  if o.isChatRoom || o.isArchivedRoom then 3
  else if !isTruthyS o.login then 2
  else if toLowerL (o.login.getD []) != toLowerL searchValue then 1
  else 0

/-- `lodashOrderBy` by `searchRank` ascending (`OptionsListUtils.js:674`). -/
def searchSort (searchValue : Str) (l : List OptionR) : List OptionR :=
  stableSort (fun a b => searchRank searchValue a < searchRank searchValue b) l

/-- `getOptions` (`OptionsListUtils.js:416-695`): order reports, build
candidate options, build personal-detail options (optionally alpha-sorted),
run the recent-report loop, recombine the priority buckets, select personal
details, synthesize the invite, and finally — in search mode — merge and
re-rank.  `none` means the JS call throws. -/
def getOptions (env : Env) (reports : List Report) (personalDetails : List PersonalDetail)
    (activeReportID : Nat) (cfg : Config) : Option OptionsResult :=
  (buildReportOptions env cfg activeReportID personalDetails
    (orderedReportsOf cfg reports)).bind fun built =>
  (buildPersonalDetailOptions env cfg personalDetails built.2).bind fun allPD0 =>
  let allPDOptions :=
    if cfg.sortPersonalDetailsByAlphaAsc then sortByTextLowerAsc allPD0 else allPD0
  let st := pipelineBuckets env cfg built.1
  let recent := recombinedRecents cfg st
  let pds :=
    if cfg.includePersonalDetails then filterPersonalDetails cfg st.exclude allPDOptions
    else []
  (inviteStep env cfg personalDetails st.exclude recent pds).bind fun userToInvite =>
  if cfg.sortByReportTypeInSearch && !cfg.searchValue.isEmpty then
    some { personalDetails := []
           recentReports := searchSort cfg.searchValue (recent ++ pds)
           userToInvite := userToInvite }
  else
    some { personalDetails := pds
           recentReports := recent
           userToInvite := userToInvite }

/-! ## Claim-side (spec) definitions -/

/-- The recent-list shape claimed by the spec's recombination invariant:
pinned bucket alphabetical by text, then IOU-debt bucket by amount
descending, then draft bucket alphabetical by text, then the plain recent
entries in their prior order. -/
def prioritizedOrder (st : Buckets) : List OptionR :=
  sortByTextAsc st.pinned ++ sortByAmountDesc st.iou ++ sortByTextAsc st.draft ++ st.recent

/-- The spec's description of first-occurrence deduplication: keep the head
and deduplicate the tail with all copies of the head removed. -/
def dedupKeepFirst : List Str → List Str
  | [] => []
  | x :: xs => x :: dedupKeepFirst (xs.filter (fun y => y != x))
  termination_by l => l.length
  decreasing_by
    simp only [List.length_cons]
    exact Nat.lt_succ_of_le (List.length_filter_le _ _)

/-! ## A concrete environment and concrete inputs

These instantiate the abstract collaborators with simple total functions and
provide the small snapshots used by the witnesses, counterexamples and
failing-input evaluations below.  Any choice of environment is a legitimate
input: the module treats these collaborators as opaque. -/

def testEnv : Env :=
  { currentUserLogin := str "me@x.com"
    getReportName := fun report pdl =>
      match report with
      | some r => r.reportName
      | none => ((pdl.head?).map (fun p => p.displayName)).getD []
    getChatRoomSubtitle := fun r => r.policyType
    getReportParticipantsTitle := fun _ => []
    getIcons := fun _ _ avatar => [avatar]
    getDefaultAvatar := fun _ => str "defaultAvatar"
    isReportMessageAttachment := fun _ _ => false
    htmlDecode := fun s => s
    removeSMSDomain := fun s => s
    archivedText := fun _ reason => reason
    isValidEmail := fun s => s.contains '@'
    isValidPhone := fun _ => false
    isDomainEmail := fun _ => false
    canUseDefaultRooms := fun _ => true
    canUsePolicyRooms := fun _ => true
    canUsePolicyExpenseChat := fun _ => true
    canUseChronos := fun _ => true
    hasExpensifyGuidesEmails := fun _ => false }

/-- A chat room with an empty participant list (C3's failing input). -/
def roomReportC3 : Report :=
  { reportID := 7, participants := [], isChatRoom := true, reportName := str "#room" }

/-- A pinned, archived default room (C7's failing input). -/
def reportC7 : Report :=
  { reportID := 3, participants := [str "a@x.com"], isPinned := true
    isChatRoom := true, isDefaultRoom := true, isArchivedRoom := true
    lastMessageTimestamp := 5, reportName := str "#general" }

def cfgC7 : Config :=
  { includeRecentReports := true, includeMultipleParticipantReports := true
    prioritizePinnedReports := true }

/-- Two pinned single-participant reports (C6's counterexample input). -/
def reportC6a : Report :=
  { reportID := 1, participants := [str "a@x.com"], isPinned := true
    lastMessageTimestamp := 10, reportName := str "Ay" }

def reportC6b : Report :=
  { reportID := 2, participants := [str "b@x.com"], isPinned := true
    lastMessageTimestamp := 9, reportName := str "Bee" }

def cfgC6 : Config :=
  { includeRecentReports := true, prioritizePinnedReports := true
    maxRecentReportsToShow := 1 }

/-- Concrete accepted candidates for the C6 witness (loop level). -/
def optW1 : OptionR := { text := str "A", login := some (str "a@x.com") }

def optW2 : OptionR := { text := str "B", login := some (str "b@x.com") }

def cfgC6W : Config :=
  { maxRecentReportsToShow := 1, includeMultipleParticipantReports := true }

def pdAlice : PersonalDetail := { login := str "alice@x.com", displayName := str "Alice" }

/-- All three prioritization flags on together with the search-mode merge
(C1's counterexample configuration). -/
def cfgC1x : Config :=
  { includeRecentReports := true, includePersonalDetails := true
    prioritizePinnedReports := true, prioritizeIOUDebts := true
    prioritizeReportsWithDraftComments := true
    sortByReportTypeInSearch := true, searchValue := str "alice" }

/-- All three prioritization flags on, no search (C1's witness input). -/
def cfgC1w : Config :=
  { includeRecentReports := true, prioritizePinnedReports := true
    prioritizeIOUDebts := true, prioritizeReportsWithDraftComments := true }

def reportC1w : Report :=
  { reportID := 2, participants := [str "b@x.com"], hasDraft := true
    lastMessageTimestamp := 3, reportName := str "Drafty" }

def reportC1w2 : Report :=
  { reportID := 3, participants := [str "c@x.com"], lastMessageTimestamp := 7
    reportName := str "Plain" }

def pdBob : PersonalDetail := { login := str "Bob@x.com", displayName := str "Bob" }

def cfgC5x : Config :=
  { includePersonalDetails := true, searchValue := str "Bob@x.com" }

def cfgC5w : Config := { searchValue := str "new@y.com" }

/-- A personal detail with an empty (falsy) login (C9's counterexample). -/
def pdEmptyLogin : PersonalDetail := { login := [], displayName := str "Emp" }

def reportC9 : Report :=
  { reportID := 4, participants := [[]], isPinned := true
    lastMessageTimestamp := 2, reportName := str "EmptyChat" }

def cfgC9x : Config :=
  { includeRecentReports := true, includeMultipleParticipantReports := true
    includePersonalDetails := true }

def reportC9w : Report :=
  { reportID := 5, participants := [str "a@x.com"], isPinned := true
    lastMessageTimestamp := 2, reportName := str "AChat" }

def pdA : PersonalDetail := { login := str "a@x.com", displayName := str "Al" }

def pdB : PersonalDetail := { login := str "b@x.com", displayName := str "Bo" }

def cfgC9w : Config :=
  { includeRecentReports := true, includePersonalDetails := true }

/-- The union of the four buckets of a loop state. -/
def bucketUnion (st : Buckets) : List OptionR :=
  st.recent ++ st.pinned ++ st.iou ++ st.draft

/-! ### Concrete pipeline results used by the witnesses -/

def builtC1W : List OptionR × List (Option Str × Report) :=
  (buildReportOptions testEnv cfgC1w 0 []
    (orderedReportsOf cfgC1w [reportC1w, reportC1w2])).getD ([], [])

def resC1W : OptionsResult :=
  (getOptions testEnv [reportC1w, reportC1w2] [] 0 cfgC1w).getD default

def resC5W : OptionsResult := (getOptions testEnv [] [] 0 cfgC5w).getD default

def uC5W : OptionR := resC5W.userToInvite.getD default

def resC9W : OptionsResult :=
  (getOptions testEnv [reportC9w] [pdA, pdB] 0 cfgC9w).getD default

def oC9W : OptionR := (resC9W.recentReports.head?).getD default

def pC9W : OptionR := (resC9W.personalDetails.head?).getD default

/-! ## Helper lemmas -/

theorem mem_insertBefore {α : Type} {lt : α → α → Bool} {x a : α} (l : List α) :
    a ∈ insertBefore lt x l ↔ a = x ∨ a ∈ l := by
  induction l with
  | nil => simp [insertBefore]
  | cons y ys ih =>
    cases h : lt y x with
    | true =>
      simp only [insertBefore, h, if_true, List.mem_cons, ih] <;> tauto
    | false =>
      simp only [insertBefore, h, Bool.false_eq_true, if_false, List.mem_cons] <;> tauto

theorem mem_stableSort {α : Type} {lt : α → α → Bool} {a : α} (l : List α) :
    a ∈ stableSort lt l ↔ a ∈ l := by
  induction l with
  | nil => simp [stableSort]
  | cons x xs ih => simp [stableSort, mem_insertBefore, ih]

theorem insertBefore_append {α : Type} {lt : α → α → Bool} {x : α} {A B : List α}
    (hA : ∀ y ∈ A, lt y x = true) (hB : ∀ y ∈ B, lt y x = false) :
    insertBefore lt x (A ++ B) = A ++ x :: B := by
  induction A with
  | nil =>
    cases B with
    | nil => rfl
    | cons b bs =>
      simp only [List.nil_append, insertBefore, hB b (List.mem_cons_self b bs),
        Bool.false_eq_true, if_false]
  | cons a as ih =>
    have h : lt a x = true := hA a (List.mem_cons_self a as)
    simp only [List.cons_append, insertBefore, h, if_true]
    simp only [List.append_eq]
    rw [ih (fun y hy => hA y (List.mem_cons_of_mem a hy))]

/-- A stable sort by a boolean key is the stable partition: `false`-keyed
elements in order, then `true`-keyed elements in order. -/
theorem stableSort_boolKey {α : Type} (key : α → Bool) (l : List α) :
    stableSort (fun a b => !key a && key b) l
      = l.filter (fun a => !key a) ++ l.filter key := by
  induction l with
  | nil => rfl
  | cons x xs ih =>
    have hstep : stableSort (fun a b => !key a && key b) (x :: xs)
        = insertBefore (fun a b => !key a && key b) x
            (List.filter (fun a => !key a) xs ++ List.filter key xs) := by
      simp only [stableSort, ih]
    rw [hstep]
    cases hx : key x with
    | true =>
      have hA : ∀ y ∈ List.filter (fun a => !key a) xs,
          ((fun a b => !key a && key b) y x) = true := by
        intro y hy
        have h := (List.mem_filter.mp hy).2
        simp only [h, hx, Bool.and_true]
      have hB : ∀ y ∈ List.filter key xs,
          ((fun a b => !key a && key b) y x) = false := by
        intro y hy
        have h := (List.mem_filter.mp hy).2
        simp [h]
      rw [insertBefore_append hA hB]
      simp [List.filter_cons, hx]
    | false =>
      have hfront : insertBefore (fun a b => !key a && key b) x
          (List.filter (fun a => !key a) xs ++ List.filter key xs)
          = x :: (List.filter (fun a => !key a) xs ++ List.filter key xs) := by
        cases hL : (List.filter (fun a => !key a) xs ++ List.filter key xs) with
        | nil => rfl
        | cons b bs => simp [insertBefore, hx]
      rw [hfront]
      simp [List.filter_cons, hx]

theorem not_contains_cons (y x : Str) (s : List Str) :
    (!(x :: s).contains y) = ((!s.contains y) && (y != x)) := by
  show (!(y == x || s.contains y)) = _
  cases h : y == x <;> cases h2 : s.contains y <;> simp [h, h2, bne]

theorem uniqFastAux_eq_dedup (items : List Str) : ∀ seen : List Str,
    uniqFastAux items seen
      = dedupKeepFirst (items.filter (fun x => !seen.contains x)) := by
  induction items with
  | nil => intro seen; simp [uniqFastAux, dedupKeepFirst]
  | cons x xs ih =>
    intro seen
    cases hc : seen.contains x with
    | true =>
      simp only [uniqFastAux, hc, if_true, List.filter_cons, Bool.not_true,
        Bool.false_eq_true, if_false]
      exact ih seen
    | false =>
      simp only [uniqFastAux, hc, Bool.false_eq_true, if_false, List.filter_cons,
        Bool.not_false, if_true]
      rw [ih (x :: seen)]
      conv_rhs => rw [dedupKeepFirst]
      congr 1
      rw [List.filter_filter]
      congr 1
      apply List.filter_congr
      intro y _
      show (!(y == x || seen.contains y)) = (y != x && !seen.contains y)
      cases hys : seen.contains y <;> cases hyx : y == x <;> simp [hys, hyx, bne]

theorem uniqFast_eq_dedupKeepFirst (l : List Str) : uniqFast l = dedupKeepFirst l := by
  have h := uniqFastAux_eq_dedup l []
  have h2 : l.filter (fun x => !List.contains [] x) = l := by
    apply List.filter_eq_self.mpr
    intro a _
    rfl
  rw [uniqFast, h, h2]

theorem mem_dedupKeepFirst {a : Str} : ∀ {l : List Str}, a ∈ dedupKeepFirst l → a ∈ l := by
  intro l
  induction l using dedupKeepFirst.induct with
  | case1 => simp [dedupKeepFirst]
  | case2 x xs ih =>
    simp only [dedupKeepFirst, List.mem_cons]
    rintro (rfl | h)
    · exact Or.inl rfl
    · exact Or.inr (List.mem_of_mem_filter (ih h))

theorem nodup_dedupKeepFirst : ∀ (l : List Str), (dedupKeepFirst l).Nodup := by
  intro l
  induction l using dedupKeepFirst.induct with
  | case1 => simp [dedupKeepFirst]
  | case2 x xs ih =>
    simp only [dedupKeepFirst, List.nodup_cons]
    refine ⟨fun hmem => ?_, ih⟩
    have h2 := mem_dedupKeepFirst hmem
    simp only [List.mem_filter, bne_self_eq_false] at h2
    exact absurd h2.2 (by simp)

/-! ### Lemmas about the recent-report loop -/

theorem placeBucket_exclude (cfg : Config) (o : OptionR) (st : Buckets) :
    (placeBucket cfg o st).exclude = st.exclude := by
  unfold placeBucket
  repeat' split
  all_goals rfl

theorem mem_placeBucket (cfg : Config) (o : OptionR) (st : Buckets) {p : OptionR}
    (hp : p ∈ bucketUnion (placeBucket cfg o st)) : p ∈ bucketUnion st ∨ p = o := by
  unfold placeBucket at hp
  unfold bucketUnion at hp ⊢
  repeat' split at hp
  all_goals
    simp only [List.mem_append, List.mem_singleton] at hp ⊢
    tauto

theorem pushLoginExclude_buckets (o : OptionR) (st : Buckets) :
    bucketUnion (pushLoginExclude o st) = bucketUnion st := by
  unfold pushLoginExclude
  split <;> rfl

theorem pushLoginExclude_exclude_mono (o : OptionR) (st : Buckets) {e : Option Str}
    (h : e ∈ st.exclude) : e ∈ (pushLoginExclude o st).exclude := by
  unfold pushLoginExclude
  split
  · simp only [List.mem_append]
    exact Or.inl h
  · exact h

theorem pushLoginExclude_recent (o : OptionR) (st : Buckets) :
    (pushLoginExclude o st).recent = st.recent := by
  unfold pushLoginExclude
  split <;> rfl

theorem stepOption_exclude_mono {cfg : Config} {o : OptionR} {st : Buckets} {e : Option Str}
    (h : e ∈ st.exclude) : e ∈ (stepOption cfg o st).exclude := by
  unfold stepOption
  split
  · exact h
  · split
    · exact h
    · split
      · exact h
      · exact pushLoginExclude_exclude_mono _ _ (by rw [placeBucket_exclude]; exact h)

theorem stepOption_recent_extend (cfg : Config) (o : OptionR) (st : Buckets) :
    ∃ u, (stepOption cfg o st).recent = st.recent ++ u ∧ u.length ≤ 1 := by
  unfold stepOption
  split
  · exact ⟨[], by simp, by simp⟩
  · split
    · exact ⟨[], by simp, by simp⟩
    · split
      · exact ⟨[], by simp, by simp⟩
      · rw [pushLoginExclude_recent]
        unfold placeBucket
        split
        · exact ⟨[], by simp, by simp⟩
        · split
          · exact ⟨[], by simp, by simp⟩
          · split
            · exact ⟨[], by simp, by simp⟩
            · exact ⟨[o], rfl, by simp⟩

theorem stepOption_invariant {cfg : Config} {o : OptionR} {st : Buckets}
    (h : ∀ p ∈ bucketUnion st, isTruthyS p.login = true → p.login ∈ st.exclude) :
    ∀ p ∈ bucketUnion (stepOption cfg o st), isTruthyS p.login = true →
      p.login ∈ (stepOption cfg o st).exclude := by
  unfold stepOption
  split
  · exact h
  · split
    · exact h
    · split
      · exact h
      · intro p hp htr
        rw [pushLoginExclude_buckets] at hp
        rcases mem_placeBucket cfg o st hp with hmem | rfl
        · exact pushLoginExclude_exclude_mono _ _
            (by rw [placeBucket_exclude]; exact h p hmem htr)
        · unfold pushLoginExclude
          split
          · simp
          · next hfalse => exact absurd htr hfalse

theorem recentLoop_exclude_mono (cfg : Config) :
    ∀ (os : List OptionR) (st : Buckets) {e : Option Str},
      e ∈ st.exclude → e ∈ (recentLoop cfg os st).exclude := by
  intro os
  induction os with
  | nil => intro st e h; exact h
  | cons o os ih =>
    intro st e h
    simp only [recentLoop]
    split
    · exact h
    · exact ih _ (stepOption_exclude_mono h)

theorem recentLoop_invariant (cfg : Config) :
    ∀ (os : List OptionR) (st : Buckets),
      (∀ p ∈ bucketUnion st, isTruthyS p.login = true → p.login ∈ st.exclude) →
      ∀ p ∈ bucketUnion (recentLoop cfg os st), isTruthyS p.login = true →
        p.login ∈ (recentLoop cfg os st).exclude := by
  intro os
  induction os with
  | nil => intro st h; exact h
  | cons o os ih =>
    intro st h
    simp only [recentLoop]
    split
    · exact h
    · exact ih _ (stepOption_invariant h)

theorem recentLoop_recent_extend (cfg : Config) :
    ∀ (os : List OptionR) (st : Buckets),
      ∃ t, (recentLoop cfg os st).recent = st.recent ++ t := by
  intro os
  induction os with
  | nil => intro st; exact ⟨[], by simp [recentLoop]⟩
  | cons o os ih =>
    intro st
    simp only [recentLoop]
    split
    · exact ⟨[], by simp⟩
    · obtain ⟨u, hu, _⟩ := stepOption_recent_extend cfg o st
      obtain ⟨t, ht⟩ := ih (stepOption cfg o st)
      exact ⟨u ++ t, by rw [ht, hu, List.append_assoc]⟩

theorem stepOption_max_irrel (cfg : Config) (o : OptionR) (st : Buckets) :
    stepOption { cfg with maxRecentReportsToShow := 0 } o st = stepOption cfg o st := rfl

/-- With the prioritization flags off, an accepted candidate always lands in
the plain `recent` bucket, so the capped loop computes a prefix of the
unlimited loop: its plain bucket is the unlimited plain bucket truncated at
the cap. -/
theorem recentLoop_take (cfg : Config)
    (hp : cfg.prioritizePinnedReports = false) (hi : cfg.prioritizeIOUDebts = false)
    (hd : cfg.prioritizeReportsWithDraftComments = false)
    (hm : 0 < cfg.maxRecentReportsToShow) :
    ∀ (os : List OptionR) (st : Buckets),
      st.recent.length ≤ cfg.maxRecentReportsToShow →
      (recentLoop cfg os st).recent
        = ((recentLoop { cfg with maxRecentReportsToShow := 0 } os st).recent).take
            cfg.maxRecentReportsToShow := by
  intro os
  induction os with
  | nil =>
    intro st hst
    simp only [recentLoop]
    exact (List.take_of_length_le hst).symm
  | cons o os ih =>
    intro st hst
    simp only [recentLoop]
    have hcond0 :
        (decide (0 < st.recent.length)
          && (st.recent.length == ({ cfg with maxRecentReportsToShow := 0 }
               : Config).maxRecentReportsToShow)) = false := by
      show (decide (0 < st.recent.length) && (st.recent.length == 0)) = false
      cases h0 : st.recent.length with
      | zero => simp
      | succ n => simp [h0]
    rw [hcond0]
    simp only [Bool.false_eq_true, if_false]
    rcases Nat.lt_or_ge st.recent.length cfg.maxRecentReportsToShow with hlt | hge
    · have hcond :
          (decide (0 < st.recent.length)
            && (st.recent.length == cfg.maxRecentReportsToShow)) = false := by
        have hne : st.recent.length ≠ cfg.maxRecentReportsToShow := Nat.ne_of_lt hlt
        simp [hne]
      rw [hcond]
      simp only [Bool.false_eq_true, if_false]
      rw [stepOption_max_irrel]
      apply ih
      obtain ⟨u, hu, hul⟩ := stepOption_recent_extend cfg o st
      rw [hu, List.length_append]
      omega
    · have heq : st.recent.length = cfg.maxRecentReportsToShow :=
        Nat.le_antisymm hst hge
      have hcond :
          (decide (0 < st.recent.length)
            && (st.recent.length == cfg.maxRecentReportsToShow)) = true := by
        simp [heq]
        omega
      rw [hcond]
      simp only [if_true]
      rw [stepOption_max_irrel]
      obtain ⟨t, ht⟩ :=
        recentLoop_recent_extend { cfg with maxRecentReportsToShow := 0 } os
          (stepOption cfg o st)
      obtain ⟨u, hu, _⟩ := stepOption_recent_extend cfg o st
      rw [ht, hu, List.append_assoc]
      exact (List.take_left' heq).symm

/-! ### Membership lemmas for the recombination and search-merge steps -/

theorem mem_of_ite_append {b : Bool} {L M : List OptionR} {o : OptionR}
    (h : o ∈ (if b = true then L ++ M else M)) : o ∈ L ∨ o ∈ M := by
  split at h
  · exact List.mem_append.mp h
  · exact Or.inr h

theorem mem_of_ite_partition {b : Bool} {L : List OptionR} {p q : OptionR → Bool}
    {o : OptionR} (h : o ∈ (if b = true then L.filter p ++ L.filter q else L)) :
    o ∈ L := by
  split at h
  · rcases List.mem_append.mp h with h1 | h1 <;> exact List.mem_of_mem_filter h1
  · exact h

theorem mem_recombinedRecents {cfg : Config} {st : Buckets} {o : OptionR}
    (h : o ∈ recombinedRecents cfg st) : o ∈ bucketUnion st := by
  dsimp only [recombinedRecents] at h
  have h3 := mem_of_ite_partition h
  have hbu : bucketUnion st = st.recent ++ st.pinned ++ st.iou ++ st.draft := rfl
  rcases mem_of_ite_append h3 with h4 | h5
  · have := (mem_stableSort st.pinned).mp h4
    rw [hbu]
    simp only [List.mem_append]
    tauto
  rcases mem_of_ite_append h5 with h6 | h7
  · have := (mem_stableSort st.iou).mp h6
    rw [hbu]
    simp only [List.mem_append]
    tauto
  rcases mem_of_ite_append h7 with h8 | h9
  · have := (mem_stableSort st.draft).mp h8
    rw [hbu]
    simp only [List.mem_append]
    tauto
  · rw [hbu]
    simp only [List.mem_append]
    tauto

theorem pipelineBuckets_invariant (env : Env) (cfg : Config) (opts : List OptionR) :
    ∀ p ∈ bucketUnion (pipelineBuckets env cfg opts), isTruthyS p.login = true →
      p.login ∈ (pipelineBuckets env cfg opts).exclude := by
  unfold pipelineBuckets
  split
  · apply recentLoop_invariant
    intro p hp
    simp [bucketUnion] at hp
  · intro p hp
    simp [bucketUnion] at hp

theorem initialExclude_mem_pipeline (env : Env) (cfg : Config) (opts : List OptionR)
    {e : Option Str} (h : e ∈ initialExclude env cfg) :
    e ∈ (pipelineBuckets env cfg opts).exclude := by
  unfold pipelineBuckets
  split
  · exact recentLoop_exclude_mono cfg opts _ h
  · exact h

/-- Destructuring of a successful `getOptions` run into its phases; each
later claim proof starts from this. -/
theorem getOptions_parts {env : Env} {reports : List Report}
    {pds : List PersonalDetail} {arid : Nat} {cfg : Config} {res : OptionsResult}
    (hG : getOptions env reports pds arid cfg = some res) :
    ∃ built allPD0 inv,
      buildReportOptions env cfg arid pds (orderedReportsOf cfg reports) = some built ∧
      buildPersonalDetailOptions env cfg pds built.2 = some allPD0 ∧
      inviteStep env cfg pds (pipelineBuckets env cfg built.1).exclude
        (recombinedRecents cfg (pipelineBuckets env cfg built.1))
        (if cfg.includePersonalDetails then
           filterPersonalDetails cfg (pipelineBuckets env cfg built.1).exclude
             (if cfg.sortPersonalDetailsByAlphaAsc then sortByTextLowerAsc allPD0
              else allPD0)
         else []) = some inv ∧
      res = (if cfg.sortByReportTypeInSearch && !cfg.searchValue.isEmpty then
              { personalDetails := []
                recentReports := searchSort cfg.searchValue
                  (recombinedRecents cfg (pipelineBuckets env cfg built.1) ++
                    (if cfg.includePersonalDetails then
                       filterPersonalDetails cfg (pipelineBuckets env cfg built.1).exclude
                         (if cfg.sortPersonalDetailsByAlphaAsc then sortByTextLowerAsc allPD0
                          else allPD0)
                     else []))
                userToInvite := inv }
            else
              { personalDetails :=
                  (if cfg.includePersonalDetails then
                     filterPersonalDetails cfg (pipelineBuckets env cfg built.1).exclude
                       (if cfg.sortPersonalDetailsByAlphaAsc then sortByTextLowerAsc allPD0
                        else allPD0)
                   else [])
                recentReports := recombinedRecents cfg (pipelineBuckets env cfg built.1)
                userToInvite := inv }) := by
  unfold getOptions at hG
  rw [Option.bind_eq_some] at hG
  obtain ⟨built, hb, hG⟩ := hG
  rw [Option.bind_eq_some] at hG
  obtain ⟨allPD0, hpd, hG⟩ := hG
  dsimp only at hG
  rw [Option.bind_eq_some] at hG
  obtain ⟨inv, hinv, hG⟩ := hG
  refine ⟨built, allPD0, inv, hb, hpd, hinv, ?_⟩
  split at hG
  case isTrue hcond =>
    rw [if_pos hcond]
    exact (Option.some.inj hG).symm
  case isFalse hcond =>
    rw [if_neg hcond]
    exact (Option.some.inj hG).symm

/-! ## Claim theorems -/

/-- C10: `isCurrentUser` returns `false` whenever its argument is
`null`/`undefined`, for every ambient state (so without reading the
current-user login or the login list). -/
theorem c10_isCurrentUser_none (env : Env) : isCurrentUser env none = false := rfl

/-- C4: for every sort configuration and report collection, the candidate
ordering of `getOptions` is the primary sort with the archived rooms moved —
stably — behind all non-archived reports: it equals the non-archived
survivors of the primary sort, in their primary-sort order, followed by the
archived rooms, in their primary-sort order. -/
theorem c4_archived_rooms_last (cfg : Config) (reports : List Report) :
    orderedReportsOf cfg reports
      = (primarySort cfg reports).filter (fun r => !r.isArchivedRoom)
        ++ (primarySort cfg reports).filter (fun r => r.isArchivedRoom) := by
  unfold orderedReportsOf moveArchivedToEnd
  exact stableSort_boolKey (fun r => r.isArchivedRoom) (primarySort cfg reports)

/-- C8: `uniqFast` keeps exactly the first occurrence of each distinct
string, in first-occurrence order (it equals the spec-side recursion
`dedupKeepFirst` and its output has no duplicates), and `getSearchText` is
the deduplicated term list joined with single spaces. -/
theorem c8_uniqFast_dedup :
    (∀ l : List Str, uniqFast l = dedupKeepFirst l) ∧
    (∀ l : List Str, (uniqFast l).Nodup) ∧
    (∀ (env : Env) (report : Option Report) (reportName : Str)
        (personalDetailList : List PersonalDetail) (isRoom : Bool),
      getSearchText env report reportName personalDetailList isRoom
        = joinSpace (uniqFast
            (searchTermsOf env report reportName personalDetailList isRoom))) :=
  ⟨uniqFast_eq_dedupKeepFirst,
   fun l => uniqFast_eq_dedupKeepFirst l ▸ nodup_dedupKeepFirst l,
   fun _ _ _ _ _ => rfl⟩

/-- C2 (amended): `isSearchStringMatch` returns `true` iff every token of
the normalized query (dots stripped, commas to spaces, split on spaces,
trimmed) occurs case-insensitively in the `&nbsp;`-stripped search text or —
for non-room options — is contained **as typed** (not lowercased) in the
participant-name set; and the `"john.doe"` example matches. -/
theorem c2_token_match :
    (∀ (searchValue searchText : Str) (participantNames : List Str) (isChatRoom : Bool),
      isSearchStringMatch searchValue searchText participantNames isChatRoom = true ↔
        ∀ w ∈ searchWordsOf searchValue,
          containsCI w (stripNbsp searchText) = true ∨
            (isChatRoom = false ∧ participantNames.contains w = true)) ∧
    isSearchStringMatch (str "john.doe") (str "johndoe something") [] false = true := by
  constructor
  · intro q t names room
    simp only [isSearchStringMatch, List.all_eq_true, Bool.or_eq_true, Bool.and_eq_true,
      Bool.not_eq_true']
  · decide

/-- C2 counterexample: the claim says the **lowercased** token is looked up
in the participant-name set, but the code checks the token as typed.  On
query `"Alice"`, empty search text and name set `{"alice"}`, the single
token's lowercase is in the set (so the claimed characterization yields
`true`), yet `isSearchStringMatch` returns `false`. -/
theorem c2_lowercase_counterexample :
    searchWordsOf (str "Alice") = [str "Alice"] ∧
    List.contains [str "alice"] (toLowerL (str "Alice")) = true ∧
    containsCI (str "Alice") (stripNbsp []) = false ∧
    isSearchStringMatch (str "Alice") [] [str "alice"] false = false := by
  decide

/-- C3 (code bug): building an option from a chat-room report with an empty
login list throws instead of returning an option: `personalDetailList` is
empty, so the `personalDetail.avatar` argument of `getIcons`
(`OptionsListUtils.js:347`) dereferences `undefined`. -/
theorem c3_createOption_throws :
    createOption testEnv [] [] (some roomReportC3) [] {} = none := rfl

/-- C7 (code bug): an accepted candidate that is pinned and is an archived
default room **is** placed into the pinned bucket, because the guard's
`reportOption.isDefaultRoom` (`OptionsListUtils.js:588`) reads a field
`createOption` never sets, so it is `undefined` (falsy) and the
archived-default-room exception never fires. -/
theorem c7_pinned_archived_default_room :
    reportC7.isDefaultRoom = true ∧ reportC7.isArchivedRoom = true ∧
    reportC7.isPinned = true ∧ cfgC7.prioritizePinnedReports = true ∧
    (buildReportOptions testEnv cfgC7 0 [] (orderedReportsOf cfgC7 [reportC7])).map
        (fun built => ((pipelineBuckets testEnv cfgC7 built.1).pinned.map
          (fun o => (o.isPinned, o.isArchivedRoom, o.isDefaultRoom))))
      = some [(true, true, none)] := by
  constructor
  · rfl
  constructor
  · rfl
  constructor
  · rfl
  constructor
  · rfl
  · decide

/-- C6 counterexample: with `prioritizePinnedReports` on and cap `m = 1`,
two pinned candidates are both accepted (into the pinned bucket), so more
than `m` candidates are accepted in total: the cap only counts the plain
`recentReportOptions` bucket, which stays empty here. -/
theorem c6_cap_counterexample :
    cfgC6.maxRecentReportsToShow = 1 ∧
    (getOptions testEnv [reportC6a, reportC6b] [] 0 cfgC6).map
        (fun r => r.recentReports.length) = some 2 := by
  constructor
  · rfl
  · decide

/-- C1 counterexample: with the three prioritization flags enabled but also
`sortByReportTypeInSearch` and a non-empty query, the returned recent list
is **not** the bucket concatenation: here every loop bucket is empty (there
are no reports at all), yet the search-mode merge moves a matching
personal-detail option into `recentReports`. -/
theorem c1_recombination_counterexample :
    cfgC1x.prioritizePinnedReports = true ∧ cfgC1x.prioritizeIOUDebts = true ∧
    cfgC1x.prioritizeReportsWithDraftComments = true ∧
    buildReportOptions testEnv cfgC1x 0 [pdAlice] (orderedReportsOf cfgC1x [])
      = some ([], []) ∧
    prioritizedOrder (pipelineBuckets testEnv cfgC1x []) = [] ∧
    (getOptions testEnv [] [pdAlice] 0 cfgC1x).map
        (fun r => r.recentReports.length) = some 1 := by
  refine ⟨rfl, rfl, rfl, by decide, by decide, by decide⟩

/-- C5 counterexample: the exact-match guard compares each returned login
against the **lowercased** query only (`OptionsListUtils.js:650`), so with
query `"Bob@x.com"` and a returned personal-detail option whose login is
exactly `"Bob@x.com"`, the invite is still synthesized even though the
query equals that option's login. -/
theorem c5_exact_match_counterexample :
    cfgC5x.searchValue = str "Bob@x.com" ∧
    (getOptions testEnv [] [pdBob] 0 cfgC5x).map
        (fun r => (r.userToInvite.isSome, r.personalDetails.map (fun o => o.login),
                   r.recentReports.length))
      = some (true, [some (str "Bob@x.com")], 0) := by
  constructor
  · rfl
  · decide

/-- C9 counterexample: a single-participant report whose participant login
is the empty string is accepted into the recent list, but the exclusion push
(`OptionsListUtils.js:599`) skips falsy logins, so the personal-detail phase
returns an option with the same login — the login value `""` appears in both
returned lists. -/
theorem c9_empty_login_counterexample :
    (getOptions testEnv [reportC9] [pdEmptyLogin] 0 cfgC9x).map
        (fun r => (r.recentReports.map (fun o => o.login),
                   r.personalDetails.map (fun o => o.login)))
      = some ([some []], [some []]) := by
  decide

/-- When the three prioritization flags are set and the search-time
partition is inert, the recombination yields exactly the claimed
concatenation. -/
theorem recombined_eq_prioritizedOrder {cfg : Config} (st : Buckets)
    (hpin : cfg.prioritizePinnedReports = true)
    (hiou : cfg.prioritizeIOUDebts = true)
    (hdraft : cfg.prioritizeReportsWithDraftComments = true)
    (hq : cfg.searchValue = [] ∨ cfg.prioritizeDefaultRoomsInSearch = false) :
    recombinedRecents cfg st = prioritizedOrder st := by
  have hdr : (cfg.prioritizeDefaultRoomsInSearch && !cfg.searchValue.isEmpty) = false := by
    rcases hq with hq | hq
    · simp [hq]
    · simp [hq]
  dsimp only [recombinedRecents, prioritizedOrder]
  rw [hpin, hiou, hdraft, hdr]
  simp [List.append_assoc]

/-- C1 (amended): with `prioritizePinnedReports`, `prioritizeIOUDebts` and
`prioritizeReportsWithDraftComments` all enabled — and provided the two
search-time reorderings are inert (empty query, or
`prioritizeDefaultRoomsInSearch` and `sortByReportTypeInSearch` both
disabled) — the recent list returned by `getOptions` is exactly: pinned
bucket sorted alphabetically by text, then IOU-debt bucket sorted descending
by `iouReportAmount`, then draft bucket sorted alphabetically by text, then
the plain recent entries in their prior order. -/
theorem c1_recombination_order (env : Env) (reports : List Report)
    (pds : List PersonalDetail) (arid : Nat) (cfg : Config) (res : OptionsResult)
    (built : List OptionR × List (Option Str × Report))
    (hpin : cfg.prioritizePinnedReports = true)
    (hiou : cfg.prioritizeIOUDebts = true)
    (hdraft : cfg.prioritizeReportsWithDraftComments = true)
    (hq : cfg.searchValue = [] ∨
      (cfg.prioritizeDefaultRoomsInSearch = false ∧ cfg.sortByReportTypeInSearch = false))
    (hbuilt : buildReportOptions env cfg arid pds (orderedReportsOf cfg reports)
      = some built)
    (hG : getOptions env reports pds arid cfg = some res) :
    res.recentReports = prioritizedOrder (pipelineBuckets env cfg built.1) := by
  obtain ⟨built', allPD0, inv, hb', hpd', hinv', hres⟩ := getOptions_parts hG
  rw [hbuilt] at hb'
  have hbb : built = built' := Option.some.inj hb'
  subst hbb
  have hmerge : (cfg.sortByReportTypeInSearch && !cfg.searchValue.isEmpty) = false := by
    rcases hq with hq | ⟨_, hq2⟩
    · simp [hq]
    · simp [hq2]
  rw [hmerge] at hres
  simp only [Bool.false_eq_true, if_false] at hres
  rw [hres]
  exact recombined_eq_prioritizedOrder _ hpin hiou hdraft
    (by rcases hq with hq | ⟨hq1, _⟩; exacts [Or.inl hq, Or.inr hq1])

/-- C6 (amended): the cap counts only the plain `recentReportOptions`
bucket.  With the three prioritization flags disabled (so every accepted
candidate is a plain recent) and a positive cap `m`, the loop's plain
bucket equals the unlimited (`m = 0`) run truncated to `m` entries — the
loop stops once `m` entries have been accepted — and in particular never
exceeds `m` entries; with `m = 0` no limit applies.  (With a prioritization
flag enabled, the total accepted across buckets can exceed `m`; see the
counterexample.) -/
theorem c6_cap_plain_bucket (cfg : Config) (opts : List OptionR)
    (excl : List (Option Str))
    (hm : 0 < cfg.maxRecentReportsToShow)
    (hp : cfg.prioritizePinnedReports = false)
    (hi : cfg.prioritizeIOUDebts = false)
    (hd : cfg.prioritizeReportsWithDraftComments = false) :
    (recentLoop cfg opts { exclude := excl }).recent
      = ((recentLoop { cfg with maxRecentReportsToShow := 0 } opts
          { exclude := excl }).recent).take cfg.maxRecentReportsToShow ∧
    (recentLoop cfg opts { exclude := excl }).recent.length
      ≤ cfg.maxRecentReportsToShow := by
  have h := recentLoop_take cfg hp hi hd hm opts { exclude := excl } (Nat.zero_le _)
  refine ⟨h, ?_⟩
  rw [h]
  exact List.length_take_le _ _

/-- C9 (amended): no **non-empty** login value appears both as the login of
a returned recent-report entry and as the login of a returned
personal-detail entry: every accepted recent entry with a truthy login is
added to the exclusion set, and personal details are filtered against that
set.  (The empty login is exempt — the push at `OptionsListUtils.js:599` is
guarded by the login's truthiness; see the counterexample.) -/
theorem c9_no_duplicate_logins (env : Env) (reports : List Report)
    (pds : List PersonalDetail) (arid : Nat) (cfg : Config) (res : OptionsResult)
    (l : Str) (o : OptionR)
    (hl : l ≠ [])
    (hG : getOptions env reports pds arid cfg = some res)
    (ho : o ∈ res.recentReports) (hol : o.login = some l) :
    ∀ p ∈ res.personalDetails, p.login ≠ some l := by
  obtain ⟨built, allPD0, inv, hb, hpd, hinv, hres⟩ := getOptions_parts hG
  intro p hp hpl
  by_cases hcond : (cfg.sortByReportTypeInSearch && !cfg.searchValue.isEmpty) = true
  · rw [if_pos hcond] at hres
    rw [hres] at hp
    simp at hp
  · rw [if_neg hcond] at hres
    rw [hres] at ho hp
    dsimp only at ho hp
    have hoB := mem_recombinedRecents ho
    have hie : l.isEmpty = false := by
      cases hLl : l with
      | nil => exact absurd rfl (hLl ▸ hl)
      | cons a as => rfl
    have hlog : isTruthyS o.login = true := by rw [hol]; simp [isTruthyS, hie]
    have hin : o.login ∈ (pipelineBuckets env cfg built.1).exclude :=
      pipelineBuckets_invariant env cfg built.1 o hoB hlog
    split at hp
    · have hfp := (List.mem_filter.mp hp).2
      have h1 : ((pipelineBuckets env cfg built.1).exclude.any
          (fun e => e == p.login)) = false := by
        rw [Bool.and_eq_true] at hfp
        simpa using hfp.1
      have h2 : ((pipelineBuckets env cfg built.1).exclude.any
          (fun e => e == p.login)) = true := by
        apply List.any_eq_true.mpr
        refine ⟨some l, ?_, ?_⟩
        · rw [hol] at hin
          exact hin
        · rw [hpl]
          simp
      rw [h1] at h2
      simp at h2
    · simp at hp

/-- C5 (amended): a non-null `userToInvite` implies: the query is non-empty;
it is a syntactically valid non-domain email or a valid phone number; no
returned recent-report or personal-detail option has a login equal to the
**lowercased** query (the code's exact-match check lowercases only the
query, `OptionsListUtils.js:650` — see the counterexample); the query is not
the current user; it is not among the selected options; and, after
SMS-domain normalization and lowercasing, it differs from the current user's
login, from every caller-excluded login and from every selected login. -/
theorem c5_invite_conditions (env : Env) (reports : List Report)
    (pds : List PersonalDetail) (arid : Nat) (cfg : Config) (res : OptionsResult)
    (u : OptionR)
    (hG : getOptions env reports pds arid cfg = some res)
    (hU : res.userToInvite = some u) :
    cfg.searchValue ≠ [] ∧
    ((env.isValidEmail cfg.searchValue = true ∧ env.isDomainEmail cfg.searchValue = false)
      ∨ env.isValidPhone cfg.searchValue = true) ∧
    (∀ o ∈ res.recentReports ++ res.personalDetails,
        o.login ≠ some (toLowerL cfg.searchValue)) ∧
    isCurrentUser env (some { login := cfg.searchValue }) = false ∧
    (∀ s ∈ cfg.selectedOptions, s ≠ some cfg.searchValue) ∧
    env.currentUserLogin ≠ toLowerL (addSMSDomainIfPhoneNumber env cfg.searchValue) ∧
    (∀ lg ∈ cfg.excludeLogins,
        lg ≠ toLowerL (addSMSDomainIfPhoneNumber env cfg.searchValue)) ∧
    (∀ s ∈ cfg.selectedOptions,
        s ≠ some (toLowerL (addSMSDomainIfPhoneNumber env cfg.searchValue))) := by
  obtain ⟨built, allPD0, inv, hb, hpd, hinv, hres⟩ := getOptions_parts hG
  set st := pipelineBuckets env cfg built.1 with hst
  set recent := recombinedRecents cfg st with hrecent
  set pdsSel := (if cfg.includePersonalDetails then
      filterPersonalDetails cfg st.exclude
        (if cfg.sortPersonalDetailsByAlphaAsc then sortByTextLowerAsc allPD0 else allPD0)
    else []) with hpdsSel
  have huinv : inv = some u := by
    rw [hres] at hU
    split at hU <;> exact hU
  subst huinv
  have hguard : inviteGuard env cfg st.exclude recent pdsSel = true := by
    cases hg : inviteGuard env cfg st.exclude recent pdsSel with
    | true => rfl
    | false =>
      unfold inviteStep at hinv
      rw [hg] at hinv
      simp at hinv
  unfold inviteGuard at hguard
  simp only [Bool.and_eq_true] at hguard
  obtain ⟨⟨⟨⟨⟨⟨h1, h2⟩, h3⟩, h4⟩, h5⟩, h6⟩, _⟩ := hguard
  -- membership in the returned lists reduces to membership in the phase lists
  have hmem : ∀ o : OptionR, o ∈ res.recentReports ++ res.personalDetails →
      o ∈ pdsSel ++ recent := by
    intro o ho
    rw [hres] at ho
    split at ho
    · rcases List.mem_append.mp ho with h | h
      · have := (mem_stableSort (recent ++ pdsSel)).mp h
        rcases List.mem_append.mp this with h' | h' <;>
          (apply List.mem_append.mpr; tauto)
      · simp at h
    · rcases List.mem_append.mp ho with h | h <;>
        (apply List.mem_append.mpr; tauto)
  -- the exact-login guard
  have hexact : ∀ o : OptionR, o ∈ pdsSel ++ recent →
      o.login ≠ some (toLowerL cfg.searchValue) := by
    have h2' : decide (recent.length + pdsSel.length = 0) = true ∨
        (!(pdsSel ++ recent).any
          (fun o => o.login == some (toLowerL cfg.searchValue))) = true := by
      rw [Bool.or_eq_true] at h2
      exact h2
    rcases h2' with hz | hany
    · intro o ho _
      have hz' : recent.length + pdsSel.length = 0 := of_decide_eq_true hz
      have hr : recent = [] := List.length_eq_zero.mp (by omega)
      have hpz : pdsSel = [] := List.length_eq_zero.mp (by omega)
      rw [hr, hpz] at ho
      simp at ho
    · have hany' : (∀ x ∈ pdsSel, ¬ x.login = some (toLowerL cfg.searchValue)) ∧
          (∀ x ∈ recent, ¬ x.login = some (toLowerL cfg.searchValue)) := by
        simpa using hany
      intro o ho heq
      rcases List.mem_append.mp ho with h | h
      · exact hany'.1 o h heq
      · exact hany'.2 o h heq
  -- initial exclusions survive into the loop's exclusion list
  have h6' : ∀ x ∈ st.exclude,
      ¬ x = some (toLowerL (addSMSDomainIfPhoneNumber env cfg.searchValue)) := by
    simpa using h6
  have hexcl : ∀ e ∈ initialExclude env cfg,
      e ≠ some (toLowerL (addSMSDomainIfPhoneNumber env cfg.searchValue)) :=
    fun e he => h6' e (initialExclude_mem_pipeline env cfg built.1 he)
  refine ⟨?_, ?_, ?_, ?_, ?_, ?_, ?_, ?_⟩
  · intro hnil
    rw [hnil] at h1
    simp at h1
  · have h5' : (env.isValidEmail cfg.searchValue
        && !env.isDomainEmail cfg.searchValue) = true ∨
        env.isValidPhone cfg.searchValue = true := by
      rw [Bool.or_eq_true] at h5
      exact h5
    rcases h5' with h | h
    · rw [Bool.and_eq_true] at h
      exact Or.inl ⟨h.1, by simpa using h.2⟩
    · exact Or.inr h
  · exact fun o ho => hexact o (hmem o ho)
  · simpa using h3
  · intro s hs
    have := List.all_eq_true.mp h4 s hs
    exact bne_iff_ne.mp this
  · intro heq
    refine hexcl (some env.currentUserLogin) ?_ (by rw [heq])
    unfold initialExclude
    exact List.mem_append.mpr (Or.inl (List.mem_append.mpr (Or.inr (by simp))))
  · intro lg hlg heq
    refine hexcl (some lg) ?_ (by rw [heq])
    unfold initialExclude
    exact List.mem_append.mpr (Or.inr (List.mem_map.mpr ⟨lg, hlg, rfl⟩))
  · intro s hs heq
    refine hexcl s ?_ heq
    unfold initialExclude
    exact List.mem_append.mpr (Or.inl (List.mem_append.mpr (Or.inl hs)))

/-! ## Witnesses -/

/-- C1 witness: a concrete run (one draft report, one plain report, all
three prioritization flags on, empty query) satisfying every hypothesis of
the amended recombination theorem. -/
theorem c1_recombination_order_witness :
    resC1W.recentReports = prioritizedOrder (pipelineBuckets testEnv cfgC1w builtC1W.1) :=
  c1_recombination_order testEnv [reportC1w, reportC1w2] [] 0 cfgC1w resC1W builtC1W
    rfl rfl rfl (Or.inl rfl) (by decide) (by decide)

/-- C5 witness: a concrete run with query `"new@y.com"` and no candidates
produces a `userToInvite`, discharging the hypotheses of the amended invite
theorem. -/
theorem c5_invite_conditions_witness : cfgC5w.searchValue ≠ [] :=
  (c5_invite_conditions testEnv [] [] 0 cfgC5w resC5W uC5W (by decide) (by decide)).1

/-- C6 witness: two concrete candidates, cap `1`, prioritization flags off:
the capped loop's plain bucket is the unlimited run truncated to one
entry. -/
theorem c6_cap_plain_bucket_witness :
    (recentLoop cfgC6W [optW1, optW2] { exclude := [] }).recent
      = ((recentLoop { cfgC6W with maxRecentReportsToShow := 0 } [optW1, optW2]
          { exclude := [] }).recent).take cfgC6W.maxRecentReportsToShow ∧
    (recentLoop cfgC6W [optW1, optW2] { exclude := [] }).recent.length
      ≤ cfgC6W.maxRecentReportsToShow :=
  c6_cap_plain_bucket cfgC6W [optW1, optW2] [] (by decide) rfl rfl rfl

/-- C9 witness: a concrete run whose recent list holds the login
`"a@x.com"`; the surviving personal-detail entry's login differs from it. -/
theorem c9_no_duplicate_logins_witness : pC9W.login ≠ some (str "a@x.com") :=
  c9_no_duplicate_logins testEnv [reportC9w] [pdA, pdB] 0 cfgC9w resC9W
    (str "a@x.com") oC9W (by decide) (by decide) (by decide) (by decide)
    pC9W (by decide)
